import Mathlib

/-!
Shallow embedding of the superbinder collaborative section-sync core,
translated from the unit tests (`tests/unit/sections.test.js`: `addSection`,
`updateSection`, `removeSection`, `handleAddSection`, `handleUpdateSection`,
`handleRemoveSection`) and the server-side integration test harness
(`broadcastToChannel`, `validateEntity`).  JavaScript arrays become `List`,
objects become structures, `Date.now()` and generated uuids enter as explicit
parameters, and `setTimeout`-based dedup expiry is modelled by logical time:
every entry of the processed-event set carries its scheduled deletion time and
is purged whenever the set is consulted at a later instant.
-/

namespace SuperBinder

/-- Entity-type-specific data of a section: the display name, an optional
parent section id (`sectionId`), and the position among siblings (`order`).
Shape taken from the payloads built by `addSection`. -/
structure SectionData where
  name : String
  sectionId : Option String
  order : Nat
  deriving Repr, DecidableEq

/-- One entry of the client-side `sections` array.  Payloads pushed by the
local `addSection` carry a `timestamp`; entities inserted by the remote
handler `handleAddSection` are pushed as `{ id, userUuid, data }` without a
timestamp field, hence the `Option`. -/
structure Entity where
  id : String
  userUuid : String
  data : SectionData
  timestamp : Option Nat
  deriving Repr, DecidableEq

/-- JavaScript `String.prototype.trim()`: strip leading and trailing
whitespace.  Written over the character list so that it evaluates by kernel
reduction on concrete inputs. -/
def jsTrim (s : String) : String :=
  ⟨((s.data.dropWhile Char.isWhitespace).reverse.dropWhile Char.isWhitespace).reverse⟩

/-- JavaScript `x || null` applied to an optional string: an absent value
stays absent and an empty (falsy) string also normalizes to `none`.  Used by
the sibling filter `(s.data.sectionId || null) === (sectionId || null)`. -/
def orNull : Option String → Option String
  | none => none
  | some s => if s = "" then none else some s

/-- The payload argument handed to `mockEmit(eventName, payload)`; `data` is
`null` (here `none`) for `remove-section` events. -/
structure EmitPayload where
  id : String
  userUuid : String
  data : Option SectionData
  timestamp : Nat
  deriving Repr, DecidableEq

/-- One `mockEmit` call: the event name together with its payload. -/
structure Emission where
  event : String
  payload : EmitPayload
  deriving Repr, DecidableEq

/-- Result of the local `addSection`: the payload it returns, the new
`sections` array, and the emitted events. -/
structure AddOut where
  payload : Entity
  store : List Entity
  emits : List Emission
  deriving Repr, DecidableEq

/-- Result of the local `updateSection` / `removeSection`: the boolean they
return, the new `sections` array, and the emitted events. -/
structure OpResult where
  ok : Bool
  store : List Entity
  emits : List Emission
  deriving Repr, DecidableEq

/-- The sibling test used by `addSection`:
`(s.data.sectionId || null) === (sectionId || null)`. -/
def sameGroup (sectionId : Option String) (s : Entity) : Bool :=
  orNull s.data.sectionId == orNull sectionId

/-- `addSection(name, sectionId)` from the unit tests: the sibling count
within the same (normalized) parent gives the new order; a payload with the
trimmed name is pushed onto `sections` and an `add-section` event is emitted.
The generated uuid, the current user uuid and `Date.now()` enter as the
explicit parameters `newId`, `userUuid`, `now`. -/
def addSection (st : List Entity) (name : String) (sectionId : Option String)
    (newId userUuid : String) (now : Nat) : AddOut :=
  let siblings := st.filter (sameGroup sectionId)
  let order := siblings.length
  let payload : Entity := ⟨newId, userUuid, ⟨jsTrim name, sectionId, order⟩, some now⟩
  ⟨payload, st ++ [payload],
    [⟨"add-section", ⟨newId, userUuid, some ⟨jsTrim name, sectionId, order⟩, now⟩⟩]⟩

/-- In-place mutation `section.data.name = name.trim()` performed on the entity
located by `find`: rewrite the name of the first entity whose id matches. -/
def setNameFirst (id nm : String) : List Entity → List Entity
  | [] => []
  | s :: rest =>
    if s.id == id then { s with data := { s.data with name := nm } } :: rest
    else s :: setNameFirst id nm rest

/-- `updateSection(id, name)` from the unit tests: when an entity with the id
exists, its `data.name` is overwritten with the trimmed name (no emptiness
validation on this local path), an `update-section` event carrying the merged
data is emitted and `true` is returned; otherwise `false`, no mutation, no
emission. -/
def updateSection (st : List Entity) (id name userUuid : String) (now : Nat) :
    OpResult :=
  match st.find? (fun s => s.id == id) with
  | some s =>
      ⟨true, setNameFirst id (jsTrim name) st,
        [⟨"update-section", ⟨id, userUuid, some { s.data with name := jsTrim name }, now⟩⟩]⟩
  | none => ⟨false, st, []⟩

/-- `removeSection(id)` from the unit tests: when an entity with the id exists,
`sections` is filtered to the entities whose id differs (only the named entity
is dropped; nothing else is touched), a `remove-section` event with `data:
null` is emitted and `true` is returned; otherwise `false`, no mutation, no
emission. -/
def removeSection (st : List Entity) (id userUuid : String) (now : Nat) :
    OpResult :=
  match st.find? (fun s => s.id == id) with
  | some _ =>
      ⟨true, st.filter (fun s => s.id != id),
        [⟨"remove-section", ⟨id, userUuid, none, now⟩⟩]⟩
  | none => ⟨false, st, []⟩

/-- An incoming `add-section` event object as consumed by `handleAddSection`:
`{ id, userUuid, data, timestamp }`. -/
structure RemoteAdd where
  id : String
  userUuid : String
  data : SectionData
  timestamp : Nat
  deriving Repr, DecidableEq

/-- Dedup fingerprint built by `handleAddSection`:
`` `add-section-${id}-${timestamp}` ``. -/
def eventKey (ev : RemoteAdd) : String :=
  "add-section-" ++ ev.id ++ "-" ++ toString ev.timestamp

/-- Client-side state touched by the remote add handler: the `sections`
array plus the `processedEvents` set.  Each remembered fingerprint carries
the instant at which its `setTimeout(() => processedEvents.delete(key), 1000)`
cleanup fires, so expiry is logical time rather than a wall clock. -/
structure ClientState where
  sections : List Entity
  processedEvents : List (String × Nat)
  deriving Repr, DecidableEq

/-- Run every `setTimeout` cleanup that is due by instant `now`: keep only the
fingerprints whose scheduled deletion time is still in the future. -/
def purgeExpired (now : Nat) (pe : List (String × Nat)) : List (String × Nat) :=
  pe.filter (fun p => now < p.2)

/-- `handleAddSection(eventObj)` from the unit tests, at logical instant
`now`: if the event fingerprint is still in the (purged) `processedEvents`
set the whole call is a no-op; otherwise the fingerprint is remembered with a
1000 ms expiry and, unless an entity with the same id already exists, the
entity `{ id, userUuid, data }` is pushed. -/
def handleAddSection (now : Nat) (st : ClientState) (ev : RemoteAdd) :
    ClientState :=
  let pe := purgeExpired now st.processedEvents
  let key := eventKey ev
  if pe.any (fun p => p.1 == key) then ⟨st.sections, pe⟩
  else
    let pe2 := (key, now + 1000) :: pe
    if st.sections.any (fun s => s.id == ev.id) then ⟨st.sections, pe2⟩
    else ⟨st.sections ++ [⟨ev.id, ev.userUuid, ev.data, none⟩], pe2⟩

/-- The `data` payload of an incoming update event: a partial section record,
each field optionally present, merged over the entity's current data by the
object spread `{ ...section.data, ...data }`. -/
structure PatchData where
  name : Option String
  sectionId : Option (Option String)
  order : Option Nat
  deriving Repr, DecidableEq

/-- JavaScript object spread `{ ...section.data, ...data }`: fields present in
the patch win, absent fields keep the entity's current value. -/
def mergeData (d : SectionData) (p : PatchData) : SectionData :=
  ⟨p.name.getD d.name, p.sectionId.getD d.sectionId, p.order.getD d.order⟩

/-- An incoming `update-section` event object: `{ id, data, timestamp }`,
where `data` may be absent (`null`). -/
structure RemoteUpdate where
  id : String
  data : Option PatchData
  timestamp : Nat
  deriving Repr, DecidableEq

/-- In-place `section.data = { ...section.data, ...data }` on the entity
located by `find`: merge the patch into the first entity whose id matches. -/
def mergeFirst (id : String) (p : PatchData) : List Entity → List Entity
  | [] => []
  | s :: rest =>
    if s.id == id then { s with data := mergeData s.data p } :: rest
    else s :: mergeFirst id p rest

/-- `handleUpdateSection(eventObj)` from the unit tests: rejects (returning
`false` and leaving the store untouched) when the id is falsy, `data` is
absent, `data.name` is not a string, or the name trims to the empty string;
otherwise merges the patch into the matching entity and returns `true`, or
returns `false` if no entity has the id. -/
def handleUpdateSection (st : List Entity) (ev : RemoteUpdate) :
    Bool × List Entity :=
  if ev.id == "" then (false, st)
  else
    match ev.data with
    | none => (false, st)
    | some p =>
      match p.name with
      | none => (false, st)
      | some nm =>
        if jsTrim nm == "" then (false, st)
        else if st.any (fun s => s.id == ev.id) then (true, mergeFirst ev.id p st)
        else (false, st)

/-- An incoming `remove-section` event object: `{ id, timestamp }`. -/
structure RemoteRemove where
  id : String
  timestamp : Nat
  deriving Repr, DecidableEq

/-- `handleRemoveSection(eventObj)` from the unit tests: rejects a falsy id;
otherwise filters out every entity with the given id and reports whether the
array shrank. -/
def handleRemoveSection (st : List Entity) (ev : RemoteRemove) :
    Bool × List Entity :=
  if ev.id == "" then (false, st)
  else
    let st2 := st.filter (fun s => s.id != ev.id)
    (decide (st2.length < st.length), st2)

/-- Payload handed to the server-side `broadcastToChannel`; its `data` may be
`null` (removals) and its client `timestamp` may be absent. -/
structure BroadcastPayload where
  id : String
  userUuid : String
  data : Option PatchData
  timestamp : Option Nat
  deriving Repr, DecidableEq

/-- JavaScript `payload.timestamp || serverTimestamp`: an absent (or zero,
hence falsy) client timestamp falls back to the server timestamp. -/
def tsOrServer (t : Option Nat) (server : Nat) : Nat :=
  match t with
  | none => server
  | some v => if v = 0 then server else v

/-- The message object built by `broadcastToChannel` and emitted to each
non-excluded socket. -/
structure BroadcastMessage where
  type : String
  id : String
  userUuid : String
  data : Option PatchData
  timestamp : Nat
  serverTimestamp : Nat
  deriving Repr, DecidableEq

/-- A channel entry of the `channels` map, restricted to the one field
`broadcastToChannel` reads: `sockets`, a uuid-keyed object of socket handles.
A `none` handle models a null/undefined socket slot, which the broadcast loop
skips; the remaining channel fields (`users`, `state`, `locked`) are never
consulted by the broadcaster. -/
structure Channel where
  sockets : List (String × Option String)
  deriving Repr, DecidableEq

/-- JavaScript `userUuid !== excludeUuid` where `excludeUuid` may be `null`
(in which case no uuid is excluded). -/
def notExcluded (u : String) (excludeUuid : Option String) : Bool :=
  match excludeUuid with
  | none => true
  | some x => u != x

/-- The loop body of `broadcastToChannel`: emit `msg` to a socket entry unless
its uuid equals `excludeUuid` or its handle is falsy
(`userUuid !== excludeUuid && channel.sockets[userUuid]`). -/
def deliverTo (excludeUuid : Option String) (msg : BroadcastMessage)
    (p : String × Option String) : Option (String × BroadcastMessage) :=
  if notExcluded p.1 excludeUuid && p.2.isSome then some (p.1, msg) else none

/-- `broadcastToChannel(channelName, type, payload, excludeUuid)` from the
integration test harness, at server instant `now`: when the channel exists, a
message carrying the event fields plus `serverTimestamp` is emitted once to
every socket whose uuid differs from `excludeUuid` and whose handle is
truthy; a missing channel produces no deliveries at all.  The result is the
list of (receiver uuid, message) deliveries performed via `socket.emit`. -/
def broadcastToChannel (channels : List (String × Channel))
    (channelName ty : String) (payload : BroadcastPayload)
    (excludeUuid : Option String) (now : Nat) :
    List (String × BroadcastMessage) :=
  match channels.lookup channelName with
  | none => []
  | some ch =>
    let message : BroadcastMessage :=
      ⟨ty, payload.id, payload.userUuid, payload.data,
        tsOrServer payload.timestamp now, now⟩
    ch.sockets.filterMap (deliverTo excludeUuid message)

/-- Claim C1 counterexample: in the store built by adding root section `A` and
child section `B` (with `sectionId = "A"`), removing `A` leaves an entity
whose `sectionId` still references the removed id `"A"` — the removal does not
cascade to descendants, contradicting the claim that zero such entities
remain.  The same holds for the remote `handleRemoveSection` path. -/
theorem removeSection_cascade_counterexample :
    (((removeSection (addSection (addSection [] "Root" none "A" "u" 1).store
          "Child" (some "A") "B" "u" 2).store "A" "u" 3).store.filter
        (fun e => e.data.sectionId == some "A")).length ≠ 0)
    ∧ (((handleRemoveSection (addSection (addSection [] "Root" none "A" "u" 1).store
          "Child" (some "A") "B" "u" 2).store ⟨"A", 3⟩).2.filter
        (fun e => e.data.sectionId == some "A")).length ≠ 0) := by
  exact ⟨by decide, by decide⟩

/-- Claim C1 amended: a remove event for id `E` deletes exactly the entities
whose id equals `E`; every other entity — including every descendant whose
`sectionId` chain referenced `E` — survives unchanged in the store. -/
theorem removeSection_removes_exactly_id (st : List Entity) (id userUuid : String)
    (now : Nat) (e : Entity) :
    e ∈ (removeSection st id userUuid now).store ↔ e ∈ st ∧ e.id ≠ id := by
  unfold removeSection
  cases hf : st.find? (fun s => s.id == id) with
  | some s => simp [List.mem_filter]
  | none =>
    have h := List.find?_eq_none.mp hf
    simp only
    constructor
    · intro he; exact ⟨he, by simpa using h e he⟩
    · exact fun hp => hp.1

/-- Claim C2 counterexample: after `add(X), add(Y), add(Z)` (orders 0, 1, 2)
into the root group and `remove(Y)`, the surviving sibling `Z` keeps order 2 —
the orders are not renumbered to the dense `{X:0, Z:1}` the claim states. -/
theorem remove_renumber_counterexample :
    ((removeSection (addSection (addSection (addSection [] "X" none "X" "u" 1).store
          "Y" none "Y" "u" 2).store "Z" none "Z" "u" 3).store "Y" "u" 4).store.find?
        (fun s => s.id == "Z")).map (fun s => s.data.order) ≠ some 1 := by
  decide

/-- Claim C2 amended: after `add(X), add(Y), add(Z)` (orders 0, 1, 2) and
`remove(Y)`, the survivors keep their original orders `{X:0, Z:2}` (removal
performs no renumbering), and a subsequent `add(W)` into the same group still
receives `order == 2`, the sibling count — colliding with `Z`. -/
theorem remove_then_add_orders :
    (((removeSection (addSection (addSection (addSection [] "X" none "X" "u" 1).store
          "Y" none "Y" "u" 2).store "Z" none "Z" "u" 3).store "Y" "u" 4).store.find?
        (fun s => s.id == "X")).map (fun s => s.data.order) = some 0)
    ∧ (((removeSection (addSection (addSection (addSection [] "X" none "X" "u" 1).store
          "Y" none "Y" "u" 2).store "Z" none "Z" "u" 3).store "Y" "u" 4).store.find?
        (fun s => s.id == "Z")).map (fun s => s.data.order) = some 2)
    ∧ ((addSection (removeSection (addSection (addSection (addSection [] "X" none "X" "u" 1).store
          "Y" none "Y" "u" 2).store "Z" none "Z" "u" 3).store "Y" "u" 4).store
        "W" none "W" "u" 5).payload.data.order = 2) := by
  exact ⟨by decide, by decide, by decide⟩

/-- Claim C5 counterexample: the local `updateSection` path does not validate
emptiness — updating the section `A` (created with name `"Hello"`) with the
whitespace-only name `"   "` persists the empty string as its name, so the
no-empty-name invariant fails on a reachable store. -/
theorem updateSection_empty_name_counterexample :
    ((updateSection (addSection [] "Hello" none "A" "u" 1).store "A" "   " "u" 2).store.any
      (fun e => e.data.name == "")) = true := by
  decide

/-- Helper: merging a patch whose name is nonempty keeps every name in the
store nonempty. -/
theorem mergeFirst_keeps_nonempty_names (tid : String) (nm : String)
    (psid : Option (Option String)) (pord : Option Nat) (hnm : nm ≠ "") :
    ∀ st : List Entity, (∀ x ∈ st, (x.data.name != "") = true) →
      ∀ x ∈ mergeFirst tid ⟨some nm, psid, pord⟩ st, (x.data.name != "") = true := by
  intro st
  induction st with
  | nil => intro _ x hx; cases hx
  | cons s rest ih =>
    intro hall x hx
    unfold mergeFirst at hx
    by_cases hc : (s.id == tid) = true
    · rw [if_pos hc] at hx
      rcases List.mem_cons.mp hx with hx0 | hx1
      · subst hx0
        simp [mergeData, hnm]
      · exact hall x (List.mem_cons_of_mem s hx1)
    · rw [if_neg hc] at hx
      rcases List.mem_cons.mp hx with hx0 | hx1
      · exact hall x (by rw [hx0]; exact List.mem_cons_self _ _)
      · exact ih (fun y hy => hall y (List.mem_cons_of_mem s hy)) x hx1

/-- Claim C5 amended: the no-empty-name invariant is enforced only on the
remote path — `handleUpdateSection` never introduces an empty `data.name` into
a store that had none (it rejects names that trim to empty), while the local
`updateSection` path trims without validating and can persist an empty name. -/
theorem handleUpdateSection_preserves_nonempty_names (st : List Entity)
    (ev : RemoteUpdate) (h : st.all (fun e => e.data.name != "") = true) :
    (handleUpdateSection st ev).2.all (fun e => e.data.name != "") = true := by
  obtain ⟨eid, edata, ets⟩ := ev
  unfold handleUpdateSection
  split
  · exact h
  · cases edata with
    | none => exact h
    | some p =>
      obtain ⟨pn, psid, pord⟩ := p
      cases pn with
      | none => exact h
      | some nm =>
        dsimp only
        split
        · exact h
        · next hne =>
          split
          · have hnm : nm ≠ "" := by
              intro hrfl
              subst hrfl
              exact hne (by decide)
            rw [List.all_eq_true] at h ⊢
            exact mergeFirst_keeps_nonempty_names eid nm psid pord hnm st h
          · exact h

/-- Claim C5 amended, concrete instance: renaming the only entity through the
remote handler keeps every name nonempty. -/
theorem handleUpdateSection_preserves_nonempty_names_witness :
    (handleUpdateSection [⟨"a", "u", ⟨"Hi", none, 0⟩, none⟩]
        ⟨"a", some ⟨some "Yo", none, none⟩, 7⟩).2.all
      (fun e => e.data.name != "") = true :=
  handleUpdateSection_preserves_nonempty_names
    [⟨"a", "u", ⟨"Hi", none, 0⟩, none⟩] ⟨"a", some ⟨some "Yo", none, none⟩, 7⟩
    (by decide)

/-- Claim C6: an update event whose `data.name` is missing (not a string) or
trims to the empty string is rejected by `handleUpdateSection`: it returns
`false` and the store — in particular the name of the targeted entity and
every other entity — is exactly what it was before the event. -/
theorem handleUpdateSection_rejects_blank_name (st : List Entity) (id : String)
    (p : PatchData) (ts : Nat)
    (_hid : st.any (fun s => s.id == id) = true)
    (hname : p.name = none ∨ ∃ s, p.name = some s ∧ jsTrim s = "") :
    handleUpdateSection st ⟨id, some p, ts⟩ = (false, st) := by
  unfold handleUpdateSection
  rcases hname with hn | ⟨s, hs, hts⟩
  · by_cases h0 : (id == "") = true
    · simp [h0]
    · simp [h0, hn]
  · by_cases h0 : (id == "") = true
    · simp [h0]
    · simp [h0, hs, hts]

/-- Claim C6, concrete instance: a whitespace-only rename of the existing
entity `a` is rejected and the store is untouched. -/
theorem handleUpdateSection_rejects_blank_name_witness :
    handleUpdateSection [⟨"a", "u", ⟨"Hi", none, 0⟩, none⟩]
        ⟨"a", some ⟨some "   ", none, none⟩, 5⟩
      = (false, [⟨"a", "u", ⟨"Hi", none, 0⟩, none⟩]) :=
  handleUpdateSection_rejects_blank_name
    [⟨"a", "u", ⟨"Hi", none, 0⟩, none⟩] "a" ⟨some "   ", none, none⟩ 5
    (by decide) (Or.inr ⟨"   ", rfl, by decide⟩)

/-- Claim C8: when no entity carries the target id, the local `updateSection`
and `removeSection` both return `false`, leave the store exactly as it was and
emit no event, and the remote `handleUpdateSection` / `handleRemoveSection`
likewise report `false` with an unchanged store — the failure stays with the
caller. -/
theorem absent_id_operations_noop (st : List Entity) (id nm userUuid : String)
    (now ts : Nat) (dOpt : Option PatchData)
    (h : st.all (fun s => s.id != id) = true) :
    updateSection st id nm userUuid now = ⟨false, st, []⟩
    ∧ removeSection st id userUuid now = ⟨false, st, []⟩
    ∧ handleUpdateSection st ⟨id, dOpt, ts⟩ = (false, st)
    ∧ handleRemoveSection st ⟨id, ts⟩ = (false, st) := by
  rw [List.all_eq_true] at h
  have hne : ∀ x ∈ st, x.id ≠ id := by
    intro x hx
    simpa using h x hx
  have hfind : st.find? (fun s => s.id == id) = none := by
    rw [List.find?_eq_none]
    intro x hx
    simpa using hne x hx
  have hany : st.any (fun s => s.id == id) = false := by
    rw [List.any_eq_false]
    intro x hx
    simpa using hne x hx
  have hfilter : st.filter (fun s => s.id != id) = st := by
    rw [List.filter_eq_self]
    intro x hx
    simpa using hne x hx
  refine ⟨?_, ?_, ?_, ?_⟩
  · unfold updateSection; rw [hfind]
  · unfold removeSection; rw [hfind]
  · unfold handleUpdateSection
    dsimp only
    split
    · rfl
    · cases dOpt with
      | none => rfl
      | some p =>
        obtain ⟨pn, psid, pord⟩ := p
        cases pn with
        | none => rfl
        | some nm2 =>
          dsimp only
          split
          · rfl
          · rw [hany]
            rfl
  · unfold handleRemoveSection
    dsimp only
    split
    · rfl
    · rw [hfilter]
      simp

/-- Claim C8, concrete instance: updating or removing the absent id `b` in a
one-entity store fails without touching the store or emitting. -/
theorem absent_id_operations_noop_witness :
    updateSection [⟨"a", "u", ⟨"Hi", none, 0⟩, none⟩] "b" "New" "u" 9
        = ⟨false, [⟨"a", "u", ⟨"Hi", none, 0⟩, none⟩], []⟩
    ∧ removeSection [⟨"a", "u", ⟨"Hi", none, 0⟩, none⟩] "b" "u" 9
        = ⟨false, [⟨"a", "u", ⟨"Hi", none, 0⟩, none⟩], []⟩
    ∧ handleUpdateSection [⟨"a", "u", ⟨"Hi", none, 0⟩, none⟩]
        ⟨"b", some ⟨some "New", none, none⟩, 9⟩
        = (false, [⟨"a", "u", ⟨"Hi", none, 0⟩, none⟩])
    ∧ handleRemoveSection [⟨"a", "u", ⟨"Hi", none, 0⟩, none⟩] ⟨"b", 9⟩
        = (false, [⟨"a", "u", ⟨"Hi", none, 0⟩, none⟩]) :=
  absent_id_operations_noop [⟨"a", "u", ⟨"Hi", none, 0⟩, none⟩] "b" "New" "u" 9 9
    (some ⟨some "New", none, none⟩) (by decide)

/-- Claim C10: broadcasting to a channel name absent from the registry is a
total, silent no-op — the delivery list is empty, no socket receives anything,
and the function returns normally. -/
theorem broadcastToChannel_missing_channel_noop (channels : List (String × Channel))
    (channelName ty : String) (payload : BroadcastPayload)
    (excludeUuid : Option String) (now : Nat)
    (h : channels.lookup channelName = none) :
    broadcastToChannel channels channelName ty payload excludeUuid now = [] := by
  unfold broadcastToChannel
  rw [h]

/-- Helper: when the fingerprint of `ev` is not in the live dedup window at
instant `now`, `handleAddSection` remembers it with a 1000 ms expiry, whatever
happens on the store side. -/
theorem handleAddSection_remembers (now : Nat) (st : ClientState) (ev : RemoteAdd)
    (h : (purgeExpired now st.processedEvents).any (fun p => p.1 == eventKey ev) = false) :
    (handleAddSection now st ev).processedEvents
      = (eventKey ev, now + 1000) :: purgeExpired now st.processedEvents := by
  unfold handleAddSection
  dsimp only
  rw [h]
  simp only [Bool.false_eq_true, if_false]
  split <;> rfl

/-- Claim C4: replaying the exact same add event (same id and timestamp, hence
the same dedup fingerprint) within the 1000 ms dedup TTL window is a no-op —
the `sections` array after the second application is exactly the array after
the first, so entity count and the content of every entity are unchanged, and
the handler returns normally without re-applying the event. -/
theorem handleAddSection_replay_noop (st : ClientState) (ev : RemoteAdd) (t1 t2 : Nat)
    (h1 : (purgeExpired t1 st.processedEvents).any (fun p => p.1 == eventKey ev) = false)
    (h2 : t2 < t1 + 1000) :
    (handleAddSection t2 (handleAddSection t1 st ev) ev).sections
      = (handleAddSection t1 st ev).sections := by
  have hseen : (purgeExpired t2 (handleAddSection t1 st ev).processedEvents).any
      (fun p => p.1 == eventKey ev) = true := by
    rw [handleAddSection_remembers t1 st ev h1]
    unfold purgeExpired
    rw [List.filter_cons]
    have hkeep : decide (t2 < (eventKey ev, t1 + 1000).2) = true := decide_eq_true h2
    rw [hkeep]
    simp
  conv_lhs => rw [handleAddSection]
  rw [hseen]
  simp

/-- Claim C4, concrete instance: handling the same remote add event twice at
instants 0 and 500 leaves the sections array of the first application
untouched. -/
theorem handleAddSection_replay_noop_witness :
    (handleAddSection 500 (handleAddSection 0 ⟨[], []⟩ ⟨"i", "u", ⟨"N", none, 0⟩, 7⟩)
        ⟨"i", "u", ⟨"N", none, 0⟩, 7⟩).sections
      = (handleAddSection 0 ⟨[], []⟩ ⟨"i", "u", ⟨"N", none, 0⟩, 7⟩).sections :=
  handleAddSection_replay_noop ⟨[], []⟩ ⟨"i", "u", ⟨"N", none, 0⟩, 7⟩ 0 500
    (by decide) (by decide)

/-- The fields of an entity a name-only update must not disturb: its id, the
mutating user, the client timestamp, the parent reference and the sibling
order. -/
def frameProj (e : Entity) : String × String × Option Nat × Option String × Nat :=
  (e.id, e.userUuid, e.timestamp, e.data.sectionId, e.data.order)

/-- Helper: `setNameFirst` keeps the store length. -/
theorem setNameFirst_length (id nm : String) :
    ∀ st : List Entity, (setNameFirst id nm st).length = st.length := by
  intro st
  induction st with
  | nil => rfl
  | cons s rest ih =>
    unfold setNameFirst
    split <;> simp [ih]

/-- Helper: `mergeFirst` keeps the store length. -/
theorem mergeFirst_length (id : String) (p : PatchData) :
    ∀ st : List Entity, (mergeFirst id p st).length = st.length := by
  intro st
  induction st with
  | nil => rfl
  | cons s rest ih =>
    unfold mergeFirst
    split <;> simp [ih]

/-- Helper: `setNameFirst` changes nothing but the name — the projection that
drops the name is the same at every position. -/
theorem setNameFirst_frame (id nm : String) :
    ∀ (st : List Entity) (i : Nat),
      ((setNameFirst id nm st)[i]?).map frameProj = (st[i]?).map frameProj := by
  intro st
  induction st with
  | nil => intro i; rfl
  | cons s rest ih =>
    intro i
    unfold setNameFirst
    by_cases hc : (s.id == id) = true
    · rw [if_pos hc]
      cases i with
      | zero => simp [frameProj]
      | succ n => simp
    · rw [if_neg hc]
      cases i with
      | zero => simp
      | succ n => simp [ih n]

/-- Helper: merging a name-only patch changes nothing but the name. -/
theorem mergeFirst_nameOnly_frame (id nm : String) :
    ∀ (st : List Entity) (i : Nat),
      ((mergeFirst id ⟨some nm, none, none⟩ st)[i]?).map frameProj
        = (st[i]?).map frameProj := by
  intro st
  induction st with
  | nil => intro i; rfl
  | cons s rest ih =>
    intro i
    unfold mergeFirst
    by_cases hc : (s.id == id) = true
    · rw [if_pos hc]
      cases i with
      | zero => simp [frameProj, mergeData]
      | succ n => simp
    · rw [if_neg hc]
      cases i with
      | zero => simp
      | succ n => simp [ih n]

/-- Claim C9: a name-only update — the local `updateSection(id, name)` as well
as the remote `handleUpdateSection` with a patch carrying only `name` — keeps
the store length and, at every position, the entity's id, owner, timestamp,
`sectionId` and `order`; only the name can differ. -/
theorem name_only_update_preserves_frame (st : List Entity) (id nm userUuid : String)
    (now ts : Nat) (i : Nat) :
    ((updateSection st id nm userUuid now).store.length = st.length
      ∧ (((updateSection st id nm userUuid now).store)[i]?).map frameProj
          = (st[i]?).map frameProj)
    ∧ ((handleUpdateSection st ⟨id, some ⟨some nm, none, none⟩, ts⟩).2.length = st.length
      ∧ (((handleUpdateSection st ⟨id, some ⟨some nm, none, none⟩, ts⟩).2)[i]?).map frameProj
          = (st[i]?).map frameProj) := by
  constructor
  · unfold updateSection
    cases hf : st.find? (fun s => s.id == id) with
    | some s =>
      exact ⟨setNameFirst_length id (jsTrim nm) st, setNameFirst_frame id (jsTrim nm) st i⟩
    | none => exact ⟨rfl, rfl⟩
  · unfold handleUpdateSection
    dsimp only
    split
    · exact ⟨rfl, rfl⟩
    · split
      · exact ⟨rfl, rfl⟩
      · split
        · exact ⟨mergeFirst_length id ⟨some nm, none, none⟩ st,
            mergeFirst_nameOnly_frame id nm st i⟩
        · exact ⟨rfl, rfl⟩

/-- One `addSection` request: the name typed by the user, the generated uuid,
the acting user and the creation instant. -/
structure AddReq where
  name : String
  newId : String
  userUuid : String
  timestamp : Nat
  deriving Repr, DecidableEq

/-- A sequence of `addSection` calls into the same sibling group `g`, applied
left to right to a starting store. -/
def addAll (g : Option String) (reqs : List AddReq) (st : List Entity) : List Entity :=
  reqs.foldl (fun acc r => (addSection acc r.name g r.newId r.userUuid r.timestamp).store) st

/-- Helper: each `addSection` into group `g` appends an entity of group `g`
whose order is the current group size, so a run of adds appends the
consecutive orders `size, size+1, ...` after the existing ones. -/
theorem addAll_orders (g : Option String) :
    ∀ (reqs : List AddReq) (st : List Entity),
      ((addAll g reqs st).filter (sameGroup g)).map (fun s => s.data.order)
        = ((st.filter (sameGroup g)).map (fun s => s.data.order))
          ++ List.range' ((st.filter (sameGroup g)).length) reqs.length := by
  intro reqs
  induction reqs with
  | nil => intro st; simp [addAll]
  | cons r rs ih =>
    intro st
    have hstep : addAll g (r :: rs) st
        = addAll g rs ((addSection st r.name g r.newId r.userUuid r.timestamp).store) := rfl
    have hpl : (addSection st r.name g r.newId r.userUuid r.timestamp).store
        = st ++ [⟨r.newId, r.userUuid,
            ⟨jsTrim r.name, g, (st.filter (sameGroup g)).length⟩, some r.timestamp⟩] := rfl
    have hgrp : sameGroup g (⟨r.newId, r.userUuid,
        ⟨jsTrim r.name, g, (st.filter (sameGroup g)).length⟩, some r.timestamp⟩ : Entity)
        = true := by
      simp [sameGroup]
    rw [hstep, ih, hpl, List.filter_append]
    rw [List.filter_cons]
    rw [hgrp]
    simp [List.range'_succ, List.length_append]

/-- Claim C3: starting from a store whose sibling group `g` is empty, a
sequence of `addSection` calls into `g` assigns exactly the dense orders
`0, 1, ..., n-1` in admission order: the k-th add receives order `k-1`, the
group size at its insertion. -/
theorem addSection_orders_dense (g : Option String) (reqs : List AddReq)
    (st0 : List Entity) (h : st0.filter (sameGroup g) = []) :
    ((addAll g reqs st0).filter (sameGroup g)).map (fun s => s.data.order)
      = List.range reqs.length := by
  rw [addAll_orders, h]
  simp [List.range_eq_range']

/-- Claim C3, concrete instance: two root adds into the empty store receive
orders 0 and 1. -/
theorem addSection_orders_dense_witness :
    ((addAll none [⟨"First", "a", "u", 1⟩, ⟨"Second", "b", "u", 2⟩] []).filter
        (sameGroup none)).map (fun s => s.data.order) = List.range 2 :=
  addSection_orders_dense none [⟨"First", "a", "u", 1⟩, ⟨"Second", "b", "u", 2⟩] [] rfl

/-- Helper: a uuid that keys no socket entry receives no delivery. -/
theorem deliveries_none_of_not_mem (excludeUuid : Option String)
    (msg : BroadcastMessage) (u : String) :
    ∀ sockets : List (String × Option String), u ∉ sockets.map Prod.fst →
      (sockets.filterMap (deliverTo excludeUuid msg)).filter (fun m => m.1 == u) = [] := by
  intro sockets
  induction sockets with
  | nil => intro _; rfl
  | cons s rest ih =>
    intro hu
    rw [List.map_cons, List.mem_cons] at hu
    push_neg at hu
    rw [List.filterMap_cons]
    by_cases hc : (notExcluded s.1 excludeUuid && s.2.isSome) = true
    · rw [deliverTo, if_pos hc]
      dsimp only
      rw [List.filter_cons]
      have : ((s.1, msg).1 == u) = false := by
        simp only [beq_eq_false_iff_ne]
        exact fun h => hu.1 h.symm
      rw [this]
      simp only [Bool.false_eq_true, if_false]
      exact ih hu.2
    · rw [deliverTo, if_neg hc]
      exact ih hu.2

/-- Helper: with unique socket keys, a connected, non-excluded uuid receives
the message exactly once. -/
theorem deliveries_count_one (excludeUuid : Option String) (msg : BroadcastMessage)
    (u sock : String) :
    ∀ sockets : List (String × Option String), (sockets.map Prod.fst).Nodup →
      (u, some sock) ∈ sockets → notExcluded u excludeUuid = true →
      ((sockets.filterMap (deliverTo excludeUuid msg)).filter
        (fun m => m.1 == u)).length = 1 := by
  intro sockets
  induction sockets with
  | nil => intro _ hmem; cases hmem
  | cons s rest ih =>
    intro hnd hmem hu
    rw [List.map_cons, List.nodup_cons] at hnd
    rcases List.mem_cons.mp hmem with heq | hmem2
    · have hs : s = (u, some sock) := heq.symm
      subst hs
      rw [List.filterMap_cons]
      have hc : (notExcluded (u, some sock).1 excludeUuid && (u, some sock).2.isSome)
          = true := by
        simp [hu]
      rw [deliverTo, if_pos hc]
      dsimp only
      rw [List.filter_cons]
      simp only [beq_self_eq_true, if_true]
      rw [deliveries_none_of_not_mem excludeUuid msg u rest hnd.1]
      rfl
    · have hne : s.1 ≠ u := by
        intro h
        exact hnd.1 (h ▸ List.mem_map.mpr ⟨(u, some sock), hmem2, rfl⟩)
      rw [List.filterMap_cons]
      by_cases hc : (notExcluded s.1 excludeUuid && s.2.isSome) = true
      · rw [deliverTo, if_pos hc]
        dsimp only
        rw [List.filter_cons]
        have : ((s.1, msg).1 == u) = false := by
          simp only [beq_eq_false_iff_ne]
          exact hne
        rw [this]
        simp only [Bool.false_eq_true, if_false]
        exact ih hnd.2 hmem2 hu
      · rw [deliverTo, if_neg hc]
        exact ih hnd.2 hmem2 hu

/-- Claim C7: broadcasting an event into an existing channel whose socket map
has unique uuid keys delivers the message exactly once to every connected
client whose uuid differs from `excludeUuid`, never delivers to the excluded
uuid, and every delivered message carries the event type, id, userUuid, data,
timestamp (client timestamp, or the server one when absent) and the
`serverTimestamp`. -/
theorem broadcastToChannel_delivers_exactly_once (channels : List (String × Channel))
    (channelName ty : String) (payload : BroadcastPayload)
    (excludeUuid : Option String) (now : Nat) (ch : Channel)
    (hch : channels.lookup channelName = some ch)
    (hnd : (ch.sockets.map Prod.fst).Nodup) :
    (∀ u sock, (u, some sock) ∈ ch.sockets → notExcluded u excludeUuid = true →
      ((broadcastToChannel channels channelName ty payload excludeUuid now).filter
        (fun m => m.1 == u)).length = 1)
    ∧ (∀ x, excludeUuid = some x →
        ∀ m ∈ broadcastToChannel channels channelName ty payload excludeUuid now,
          m.1 ≠ x)
    ∧ (∀ m ∈ broadcastToChannel channels channelName ty payload excludeUuid now,
        m.2 = ⟨ty, payload.id, payload.userUuid, payload.data,
          tsOrServer payload.timestamp now, now⟩) := by
  have hb : broadcastToChannel channels channelName ty payload excludeUuid now
      = ch.sockets.filterMap (deliverTo excludeUuid
          ⟨ty, payload.id, payload.userUuid, payload.data,
            tsOrServer payload.timestamp now, now⟩) := by
    unfold broadcastToChannel
    rw [hch]
  refine ⟨?_, ?_, ?_⟩
  · intro u sock hmem hu
    rw [hb]
    exact deliveries_count_one excludeUuid _ u sock ch.sockets hnd hmem hu
  · intro x hx m hm
    rw [hb] at hm
    obtain ⟨p, hp, hfp⟩ := List.mem_filterMap.mp hm
    rw [deliverTo] at hfp
    by_cases hc : (notExcluded p.1 excludeUuid && p.2.isSome) = true
    · rw [if_pos hc] at hfp
      obtain ⟨hcx, _⟩ := Bool.and_eq_true_iff.mp hc
      rw [hx] at hcx
      have hne : p.1 ≠ x := by simpa [notExcluded] using hcx
      have hm1 : m.1 = p.1 := by
        cases hfp
        rfl
      rw [hm1]
      exact hne
    · rw [if_neg hc] at hfp
      cases hfp
  · intro m hm
    rw [hb] at hm
    obtain ⟨p, hp, hfp⟩ := List.mem_filterMap.mp hm
    rw [deliverTo] at hfp
    by_cases hc : (notExcluded p.1 excludeUuid && p.2.isSome) = true
    · rw [if_pos hc] at hfp
      cases hfp
      rfl
    · rw [if_neg hc] at hfp
      cases hfp

/-- Claim C7, concrete instance: with originator `U1` and second client `U2`
connected in channel `c`, a broadcast excluding `U1` reaches `U2` exactly
once. -/
theorem broadcastToChannel_delivers_exactly_once_witness :
    ((broadcastToChannel [("c", ⟨[("U1", some "s1"), ("U2", some "s2")]⟩)]
        "c" "add-section" ⟨"i", "U1", none, some 4⟩ (some "U1") 9).filter
      (fun m => m.1 == "U2")).length = 1 :=
  (broadcastToChannel_delivers_exactly_once
      [("c", ⟨[("U1", some "s1"), ("U2", some "s2")]⟩)] "c" "add-section"
      ⟨"i", "U1", none, some 4⟩ (some "U1") 9
      ⟨[("U1", some "s1"), ("U2", some "s2")]⟩ rfl (by decide)).1
    "U2" "s2" (by decide) (by decide)

/-- Claim C10, concrete instance: broadcasting into an empty registry delivers
nothing. -/
theorem broadcastToChannel_missing_channel_noop_witness :
    broadcastToChannel [] "nowhere" "add-section" ⟨"i", "u", none, none⟩ none 5 = [] :=
  broadcastToChannel_missing_channel_noop [] "nowhere" "add-section"
    ⟨"i", "u", none, none⟩ none 5 rfl

end SuperBinder
